import Mathlib

/-!
Shallow embedding of the monotonic rejection GP model of `aepsych`
(`aepsych/models/monotonic_rejection_gp.py` and `aepsych/models/base.py`),
together with theorems checking the natural-language specification against it.

Tensors are modelled as lists of rows of rationals; derivative-index tags are
stored as an extra rational column, exactly as the code appends them.  External
numerics (sobol draws, the posterior's Monte-Carlo draws, `scipy.stats.norm`)
enter as explicit parameters of the embedded functions.
-/

set_option autoImplicit false

namespace Aepsych

/-- A 2-d tensor: a list of rows, each a list of rationals. -/
abbrev Mat := List (List ℚ)

/-- Embeds `MonotonicRejectionGP._augment_with_deriv_index`:
`torch.cat((X, indx * torch.ones(X.shape[0], 1)), dim=1)` appends one column
whose every entry is `indx`. -/
def augmentWithDerivIndex (X : Mat) (indx : ℚ) : Mat :=
  X.map (fun r => r ++ [indx])

/-- Embeds `MonotonicRejectionGP._get_deriv_constraint_points`: starts from an
empty tensor and, for each `i` in `monotonic_idxs`, appends the inducing points
augmented with derivative index `i + 1`. -/
def getDerivConstraintPoints (inducingPoints : Mat) (monotonicIdxs : List ℤ) : Mat :=
  monotonicIdxs.foldl
    (fun derivCp (i : ℤ) => derivCp ++ augmentWithDerivIndex inducingPoints ((i : ℚ) + 1)) []

/-- The `monotonic_idxs` fallback used by `MonotonicRejectionGP.from_config`
when the config has no `monotonic_idxs` entry: `fallback=[-1]`. -/
def fromConfigDefaultMonotonicIdxs : List ℤ := [-1]

/-- State of a `MonotonicRejectionGP` instance: the fields of `__init__` that
the claims touch.  `meanConstant`/`meanConstantLearnable` model
`mean_module.constant` and its `requires_grad` flag. -/
structure MonotonicRejectionGP where
  monotonicIdxs : List ℤ
  numInduc : ℕ
  inducingPoints : Mat
  numSamples : ℕ
  numRejectionSamples : ℕ
  meanConstant : ℚ
  meanConstantLearnable : Bool

/-- Embeds the `fixed_prior_mean` handling of `MonotonicRejectionGP.__init__`:
when `fixed_prior_mean` is supplied it is first mapped through `norm.ppf` if
the likelihood is a `BernoulliLikelihood`, the constant is frozen with
`requires_grad_(False)`, and the (converted) value is copied in; otherwise the
mean module keeps its default constant, which stays learnable.  `normPpf`
stands for `scipy.stats.norm.ppf` (external numerics), `sobolPoints` for the
`draw_sobol_samples` result stored as `self.inducing_points`. -/
def mkMonotonicRejectionGP (monotonicIdxs : List ℤ) (sobolPoints : Mat)
    (likelihoodIsBernoulli : Bool) (fixedPriorMean : Option ℚ)
    (defaultMeanConstant : ℚ) (normPpf : ℚ → ℚ)
    (numInduc numSamples numRejectionSamples : ℕ) : MonotonicRejectionGP :=
  let mc : ℚ × Bool :=
    match fixedPriorMean with
    | none => (defaultMeanConstant, true)
    | some p => (if likelihoodIsBernoulli then normPpf p else p, false)
  { monotonicIdxs := monotonicIdxs
    numInduc := numInduc
    inducingPoints := sobolPoints
    numSamples := numSamples
    numRejectionSamples := numRejectionSamples
    meanConstant := mc.1
    meanConstantLearnable := mc.2 }

/-- The gradient-based fit (`fit_gpytorch_model` on the variational ELBO,
external numerics collaborator) updates only parameters with
`requires_grad=True`; a parameter frozen by `requires_grad_(False)` is left
unchanged.  `optimizedValue` is whatever value the optimizer would assign to
the mean constant were it learnable. -/
def fitMeanConstant (m : MonotonicRejectionGP) (optimizedValue : ℚ) :
    MonotonicRejectionGP :=
  if m.meanConstantLearnable then { m with meanConstant := optimizedValue } else m

/-- A posterior draw passes the monotonicity test when its value at every
constrained index is nonnegative. -/
def passesConstraint (constrainedIdx : List ℕ) (d : List ℚ) : Bool :=
  constrainedIdx.all (fun i => decide (0 ≤ d.getD i 0))

/-- Modelled from the spec: `RejectionSampler`
(`aepsych/acquisition/rejection_sampler.py` is not among the provided
sources).  Per spec §4.5: draw `num_rejection_samples` joint samples from the
posterior in one batch (`draws`); keep the draws whose values at
`constrained_idx` are all ≥ 0; if fewer than `num_samples` pass, warn and
return all that passed, otherwise return the first `num_samples` passing
draws. -/
def rejectionSampler (draws : Mat) (numSamples : ℕ) (constrainedIdx : List ℕ) : Mat :=
  (draws.filter (passesConstraint constrainedIdx)).take numSamples

/-- Python list repetition `l * k` as used in
`len(self.monotonic_idxs * self.num_induc)` in `sample`'s assertion. -/
def pyListRepeat (l : List ℤ) (k : ℕ) : List ℤ :=
  (List.replicate k l).flatten

/-- Result of `MonotonicRejectionGP.sample`: whether the rejection-ratio
warning fired, and the returned sample batch `samples[:, :n, 0]`. -/
structure SampleOut where
  warned : Bool
  samples : Mat

/-- Embeds `MonotonicRejectionGP.sample`.  Omitted arguments default to the
stored `self.num_samples` / `self.num_rejection_samples`; the warning fires
when `num_samples * 20 > num_rejection_samples`; the query points are
augmented with tag 0 and the derivative constraint points appended;
`constrained_idx = torch.arange(n, x_aug.shape[0])`; the rejection sampler
runs on the posterior draws (`draws`, one row per joint draw over `x_aug`);
the result is each accepted draw restricted to the first `n` entries. -/
def sample (m : MonotonicRejectionGP) (X : Mat) (draws : Mat)
    (numSamplesArg numRejectionSamplesArg : Option ℕ) : SampleOut :=
  let numSamples := numSamplesArg.getD m.numSamples
  let numRejectionSamples := numRejectionSamplesArg.getD m.numRejectionSamples
  let warned := decide (numSamples * 20 > numRejectionSamples)
  let n := X.length
  let xAug := augmentWithDerivIndex X 0 ++
    getDerivConstraintPoints m.inducingPoints m.monotonicIdxs
  let constrainedIdx := List.range' n (xAug.length - n)
  let samples := rejectionSampler draws numSamples constrainedIdx
  { warned := warned
    samples := samples.map (fun s => s.take n) }

/-- The assertion in `sample`:
`x_aug.shape[0] == X.shape[0] + len(self.monotonic_idxs * self.num_induc)`. -/
def sampleAssertionHolds (m : MonotonicRejectionGP) (X : Mat) : Prop :=
  (augmentWithDerivIndex X 0 ++
      getDerivConstraintPoints m.inducingPoints m.monotonicIdxs).length
    = X.length + (pyListRepeat m.monotonicIdxs m.numInduc).length

/-- A tensor after `squeeze()` as `predict` returns it: 0-dimensional when the
squeezed axis had size 1, otherwise 1-dimensional. -/
inductive STensor
  | scalar : ℚ → STensor
  | vec : List ℚ → STensor
deriving DecidableEq, Repr

/-- `torch.Tensor.squeeze` on a 1-d tensor: drops the dimension iff it has
size 1. -/
def squeeze (l : List ℚ) : STensor :=
  match l with
  | [x] => .scalar x
  | l => .vec l

/-- The shape of an `STensor`: `[]` for 0-d, `[n]` for 1-d. -/
def stShape : STensor → List ℕ
  | .scalar _ => []
  | .vec l => [l.length]

/-- The entries of an `STensor` as a list. -/
def stEntries : STensor → List ℚ
  | .scalar x => [x]
  | .vec l => l

/-- Elementwise application of a scalar function (`norm.cdf` acts this way on
a tensor of any shape). -/
def stMap (f : ℚ → ℚ) : STensor → STensor
  | .scalar x => .scalar (f x)
  | .vec l => .vec (l.map f)

/-- Modelled from the spec: `promote_0d` (`aepsych/utils.py` is not among the
provided sources); it promotes a 0-d value to a 1-element 1-d array and leaves
arrays untouched, so that `torch.Tensor(...)` in `predict` always receives a
1-d payload. -/
def promote0d : STensor → List ℚ
  | .scalar x => [x]
  | .vec l => l

/-- `torch.mean(samples_f, dim=0)` for a `[k, n]` tensor: the `n` column
means.  (`n` is the second tensor dimension, carried explicitly because a
`List`-of-rows model loses it when `k = 0`.) -/
def meanDim0 (s : Mat) (n : ℕ) : List ℚ :=
  (List.range n).map (fun j => (s.map (fun r => r.getD j 0)).sum / (s.length : ℚ))

/-- `torch.var(samples_f, dim=0)` for a `[k, n]` tensor: unbiased column
variances (sum of squared deviations over `k - 1`). -/
def varDim0 (s : Mat) (n : ℕ) : List ℚ :=
  (List.range n).map (fun j =>
    let col := s.map (fun r => r.getD j 0)
    let mu := col.sum / (s.length : ℚ)
    (col.map (fun x => (x - mu) ^ 2)).sum / ((s.length : ℚ) - 1))

/-- `clamp_min(0)` on a 1-d tensor. -/
def clampMin0 (l : List ℚ) : List ℚ :=
  l.map (fun x => max x 0)

/-- Embeds `MonotonicRejectionGP.predict`: sample, take mean and clamped
variance across the sample dimension, `squeeze()` each; in probability space,
pass each through `norm.cdf` (modelled by `normCdf`), `promote_0d`, and wrap
as a 1-d tensor. -/
def predict (m : MonotonicRejectionGP) (X : Mat) (draws : Mat)
    (probabilitySpace : Bool) (normCdf : ℚ → ℚ) : STensor × STensor :=
  let samplesF := (sample m X draws none none).samples
  let n := X.length
  let mean := squeeze (meanDim0 samplesF n)
  let variance := squeeze (clampMin0 (varDim0 samplesF n))
  if probabilitySpace then
    (.vec (promote0d (stMap normCdf mean)), .vec (promote0d (stMap normCdf variance)))
  else
    (mean, variance)

/-- Written from the spec's words (§4.6 `predict`), for comparison with the
code: in probability space, a component is "passed through the standard normal
CDF" — elementwise CDF, promoted to 1-d. -/
def specProbTransform (normCdf : ℚ → ℚ) (t : STensor) : STensor :=
  .vec (promote0d (stMap normCdf t))

/-- Errors raised by the query helpers of `AEPsychModel`
(`aepsych/models/base.py`). -/
inductive QueryError
  | unknownExtremumType (t : String)
  | unknownJndMethod (m : String)
  | typeErrorIntSubNone
deriving DecidableEq, Repr

/-- Which branch of a query helper produced the result (numeric payloads are
external-numerics work that the error-handling claims do not touch). -/
inductive QueryResult
  | extremumMax
  | extremumMin
  | jndMeanTaylor
  | jndMeanStep
  | jndInterval
deriving DecidableEq, Repr

/-- Control-flow embedding of `AEPsychModel._get_extremum`: dispatches on
`extremum_type`, and for any other string raises
`RuntimeError("Unknown extremum type: ...")` naming the type. -/
def getExtremum (extremumType : String) : Except QueryError QueryResult :=
  if extremumType = "max" then .ok .extremumMax
  else if extremumType = "min" then .ok .extremumMin
  else .error (.unknownExtremumType extremumType)

/-- Control-flow embedding of `AEPsychModel.get_jnd`.  With
`cred_level=None`, a known method returns inside the `if cred_level is None`
block; an unknown method falls through the block to
`alpha = 1 - cred_level`, which raises
`TypeError: unsupported operand type(s) for -: int and NoneType`.  With a
numeric `cred_level`, an unknown method reaches
`raise RuntimeError(f"Unknown method ...")` naming the method. -/
def getJnd (method : String) (credLevel : Option ℚ) : Except QueryError QueryResult :=
  match credLevel with
  | none =>
    if method = "taylor" then .ok .jndMeanTaylor
    else if method = "step" then .ok .jndMeanStep
    else .error .typeErrorIntSubNone
  | some _ =>
    if method = "taylor" then .ok .jndInterval
    else if method = "step" then .ok .jndInterval
    else .error (.unknownJndMethod method)

end Aepsych

namespace Aepsych

lemma augmentWithDerivIndex_length (X : Mat) (k : ℚ) :
    (augmentWithDerivIndex X k).length = X.length := by
  simp [augmentWithDerivIndex]

lemma foldl_append_eq_flatten (f : ℤ → Mat) :
    ∀ (mono : List ℤ) (acc : Mat),
      mono.foldl (fun a i => a ++ f i) acc = acc ++ (mono.map f).flatten := by
  intro mono
  induction mono with
  | nil => intro acc; simp
  | cons i t ih => intro acc; simp [ih, List.append_assoc]

lemma getDerivConstraintPoints_eq_flatten (ind : Mat) (mono : List ℤ) :
    getDerivConstraintPoints ind mono
      = (mono.map (fun i : ℤ => augmentWithDerivIndex ind ((i : ℚ) + 1))).flatten := by
  have h := foldl_append_eq_flatten (fun i : ℤ => augmentWithDerivIndex ind ((i : ℚ) + 1)) mono []
  simp only [List.nil_append] at h
  unfold getDerivConstraintPoints
  exact h

lemma getDerivConstraintPoints_length (ind : Mat) (mono : List ℤ) :
    (getDerivConstraintPoints ind mono).length = mono.length * ind.length := by
  rw [getDerivConstraintPoints_eq_flatten]
  induction mono with
  | nil => simp
  | cons i t ih =>
    simp only [List.map_cons, List.flatten_cons, List.length_append, ih,
      augmentWithDerivIndex_length, List.length_cons]
    ring


/-- A concrete model instance (the test suite's shape: 2 inducing points in 2
dimensions, `monotonic_idxs=[1]`) used to instantiate hypotheses. -/
def mW2 : MonotonicRejectionGP :=
  { monotonicIdxs := [1]
    numInduc := 2
    inducingPoints := [[0, 0], [1, 1]]
    numSamples := 3
    numRejectionSamples := 4
    meanConstant := 0
    meanConstantLearnable := true }

/-- C7: `_augment_with_deriv_index(points, k)` on an `N × C` tensor returns an
`N × (C+1)` tensor whose first `C` columns are the input unchanged and whose
appended last column is constantly `k`; being a pure function of its inputs it
has no side effects. -/
theorem augment_with_deriv_index_spec (X : Mat) (C : ℕ) (k : ℚ)
    (h : ∀ r ∈ X, r.length = C) :
    (augmentWithDerivIndex X k).length = X.length ∧
    (augmentWithDerivIndex X k).map (fun r => r.take C) = X ∧
    ∀ r ∈ augmentWithDerivIndex X k, r.length = C + 1 ∧ r.getLast? = some k := by
  refine ⟨augmentWithDerivIndex_length X k, ?_, ?_⟩
  · unfold augmentWithDerivIndex
    rw [List.map_map]
    have hc : ∀ r ∈ X, ((r ++ [k]).take C) = id r := by
      intro r hr
      rw [← h r hr]
      exact List.take_left r [k]
    exact (List.map_congr_left hc).trans (List.map_id X)
  · intro r hr
    unfold augmentWithDerivIndex at hr
    obtain ⟨s, hs, rfl⟩ := List.mem_map.mp hr
    refine ⟨?_, ?_⟩
    · simp [h s hs]
    · simp

/-- Witness for C7 at a concrete input. -/
theorem augment_with_deriv_index_spec_witness :
    (∀ r ∈ ([[1, 2], [3, 4]] : Mat), r.length = 2) ∧
    ((augmentWithDerivIndex [[1, 2], [3, 4]] 5).length = 2 ∧
      (augmentWithDerivIndex [[1, 2], [3, 4]] 5).map (fun r => r.take 2) = [[1, 2], [3, 4]] ∧
      ∀ r ∈ augmentWithDerivIndex [[1, 2], [3, 4]] 5,
        r.length = 2 + 1 ∧ r.getLast? = some 5) :=
  ⟨by decide, augment_with_deriv_index_spec [[1, 2], [3, 4]] 2 5 (by decide)⟩

/-- C2: the constraint point set is, for each `i` in `monotonic_idxs`, the
inducing points augmented with tag `i + 1`, concatenated across all monotonic
dimensions; it has `num_induc * |monotonic_idxs|` rows; for
`monotonic_idxs=[1]` and `num_induc=2` it has exactly 2 rows, each ending in
tag 2. -/
theorem deriv_constraint_points_spec (m : MonotonicRejectionGP)
    (h : m.inducingPoints.length = m.numInduc) :
    getDerivConstraintPoints m.inducingPoints m.monotonicIdxs
        = (m.monotonicIdxs.map
            (fun i : ℤ => augmentWithDerivIndex m.inducingPoints ((i : ℚ) + 1))).flatten ∧
    (getDerivConstraintPoints m.inducingPoints m.monotonicIdxs).length
        = m.numInduc * m.monotonicIdxs.length ∧
    (m.numInduc = 2 → m.monotonicIdxs = [1] →
      (getDerivConstraintPoints m.inducingPoints m.monotonicIdxs).length = 2 ∧
      ∀ r ∈ getDerivConstraintPoints m.inducingPoints m.monotonicIdxs,
        r.getLast? = some 2) := by
  refine ⟨getDerivConstraintPoints_eq_flatten _ _, ?_, ?_⟩
  · rw [getDerivConstraintPoints_length, h, Nat.mul_comm]
  · intro h2 hm
    refine ⟨by rw [getDerivConstraintPoints_length, hm, h, h2]; norm_num, ?_⟩
    intro r hr
    rw [getDerivConstraintPoints_eq_flatten, hm] at hr
    simp only [List.map_cons, List.map_nil, List.flatten_cons, List.flatten_nil,
      List.append_nil] at hr
    unfold augmentWithDerivIndex at hr
    obtain ⟨s, _, rfl⟩ := List.mem_map.mp hr
    norm_num

/-- Witness for C2 at a concrete model. -/
theorem deriv_constraint_points_spec_witness :
    mW2.inducingPoints.length = mW2.numInduc ∧
    (getDerivConstraintPoints mW2.inducingPoints mW2.monotonicIdxs
        = (mW2.monotonicIdxs.map
            (fun i : ℤ => augmentWithDerivIndex mW2.inducingPoints ((i : ℚ) + 1))).flatten ∧
      (getDerivConstraintPoints mW2.inducingPoints mW2.monotonicIdxs).length
          = mW2.numInduc * mW2.monotonicIdxs.length ∧
      (mW2.numInduc = 2 → mW2.monotonicIdxs = [1] →
        (getDerivConstraintPoints mW2.inducingPoints mW2.monotonicIdxs).length = 2 ∧
        ∀ r ∈ getDerivConstraintPoints mW2.inducingPoints mW2.monotonicIdxs,
          r.getLast? = some 2)) :=
  ⟨by decide, deriv_constraint_points_spec mW2 (by decide)⟩

/-- C3 (bug in the code): under `from_config`'s fallback
`monotonic_idxs=[-1]`, the constraint points built during `sample` are
augmented with tag `-1 + 1 = 0` — the function-value tag — instead of the
last dimension's derivative tag (which for a 2-d model would be 2 > 0).
Evaluated at 2-d inducing points `[[0,0],[1,1]]`: every appended row ends in
tag 0, so the rejection test constrains the function value, not the
derivative along the last dimension. -/
theorem from_config_default_constraint_tag_is_zero :
    getDerivConstraintPoints [[0, 0], [1, 1]] fromConfigDefaultMonotonicIdxs
        = [[0, 0, 0], [1, 1, 0]] ∧
    ∀ r ∈ getDerivConstraintPoints [[0, 0], [1, 1]] fromConfigDefaultMonotonicIdxs,
      ¬ ∃ k : ℚ, 0 < k ∧ r.getLast? = some k := by
  have he : getDerivConstraintPoints [[0, 0], [1, 1]] fromConfigDefaultMonotonicIdxs
      = [[0, 0, 0], [1, 1, 0]] := by
    unfold getDerivConstraintPoints fromConfigDefaultMonotonicIdxs augmentWithDerivIndex
    norm_num
  refine ⟨he, ?_⟩
  rw [he]
  rintro r hr ⟨k, hk, hlast⟩
  rcases List.mem_cons.mp hr with rfl | hr2
  · simp only [List.getLast?] at hlast
    rw [Option.some.injEq] at hlast
    rw [← hlast] at hk
    exact lt_irrefl 0 hk
  · rcases List.mem_cons.mp hr2 with rfl | hr3
    · simp only [List.getLast?] at hlast
      rw [Option.some.injEq] at hlast
      rw [← hlast] at hk
      exact lt_irrefl 0 hk
    · exact absurd hr3 (List.not_mem_nil r)

/-- C10: the assertion in `sample` —
`x_aug.shape[0] == X.shape[0] + len(self.monotonic_idxs * self.num_induc)` —
holds for every model whose stored inducing points have `num_induc` rows (an
invariant of `__init__`) and every query tensor `X`, so the assertion branch
is unreachable. -/
theorem sample_assertion_always_holds (m : MonotonicRejectionGP) (X : Mat)
    (h : m.inducingPoints.length = m.numInduc) :
    sampleAssertionHolds m X := by
  unfold sampleAssertionHolds pyListRepeat
  rw [List.length_append, augmentWithDerivIndex_length, getDerivConstraintPoints_length, h,
    List.length_flatten, List.map_replicate, List.sum_replicate, smul_eq_mul]
  ring

/-- Witness for C10 at a concrete model and query. -/
theorem sample_assertion_always_holds_witness :
    mW2.inducingPoints.length = mW2.numInduc ∧ sampleAssertionHolds mW2 [[5, 5]] :=
  ⟨by decide, sample_assertion_always_holds mW2 [[5, 5]] (by decide)⟩


/-- The `constrained_idx = torch.arange(n, x_aug.shape[0])` computed inside
`sample`. -/
def sampleConstrainedIdx (m : MonotonicRejectionGP) (X : Mat) : List ℕ :=
  List.range' X.length
    ((augmentWithDerivIndex X 0 ++
        getDerivConstraintPoints m.inducingPoints m.monotonicIdxs).length - X.length)

lemma sample_samples_eq (m : MonotonicRejectionGP) (X draws : Mat)
    (nsArg nrArg : Option ℕ) :
    (sample m X draws nsArg nrArg).samples
      = (rejectionSampler draws (nsArg.getD m.numSamples) (sampleConstrainedIdx m X)).map
          (fun s => s.take X.length) := rfl

lemma sample_warned_eq (m : MonotonicRejectionGP) (X draws : Mat)
    (nsArg nrArg : Option ℕ) :
    (sample m X draws nsArg nrArg).warned
      = decide (nsArg.getD m.numSamples * 20 > nrArg.getD m.numRejectionSamples) := rfl

/-- C1: the batch returned by `sample(X, S, R)` has at most `S` rows, exactly
`S` rows whenever at least `S` of the posterior draws pass the monotonicity
test, and each returned row is an accepted draw restricted to the `n` original
query points (the appended constraint-point columns are dropped). -/
theorem sample_shape_spec (m : MonotonicRejectionGP) (X draws : Mat) (S R : ℕ)
    (hd : ∀ d ∈ draws, d.length
        = X.length + (getDerivConstraintPoints m.inducingPoints m.monotonicIdxs).length) :
    (sample m X draws (some S) (some R)).samples.length ≤ S ∧
    (S ≤ (draws.filter (passesConstraint (sampleConstrainedIdx m X))).length →
      (sample m X draws (some S) (some R)).samples.length = S) ∧
    ∀ r ∈ (sample m X draws (some S) (some R)).samples,
      r.length = X.length ∧
      ∃ d ∈ draws, passesConstraint (sampleConstrainedIdx m X) d = true ∧
        r = d.take X.length := by
  rw [sample_samples_eq]
  unfold rejectionSampler
  refine ⟨?_, ?_, ?_⟩
  · rw [List.length_map, List.length_take]
    exact min_le_left _ _
  · intro hS
    rw [List.length_map, List.length_take]
    exact Nat.min_eq_left hS
  · intro r hr
    obtain ⟨s, hs, rfl⟩ := List.mem_map.mp hr
    have hsf := List.mem_of_mem_take hs
    obtain ⟨hsd, hsp⟩ := List.mem_filter.mp hsf
    refine ⟨?_, s, hsd, hsp, rfl⟩
    rw [List.length_take, hd s hsd]
    exact Nat.min_eq_left (Nat.le_add_right _ _)

/-- Witness for C1 at a concrete model, query and draw pool. -/
theorem sample_shape_spec_witness :
    (∀ d ∈ ([[1, 2, 3], [4, -1, 6]] : Mat), d.length
        = ([[5, 5]] : Mat).length
          + (getDerivConstraintPoints mW2.inducingPoints mW2.monotonicIdxs).length) ∧
    ((sample mW2 [[5, 5]] [[1, 2, 3], [4, -1, 6]] (some 1) (some 2)).samples.length ≤ 1 ∧
      (1 ≤ (([[1, 2, 3], [4, -1, 6]] : Mat).filter
          (passesConstraint (sampleConstrainedIdx mW2 [[5, 5]]))).length →
        (sample mW2 [[5, 5]] [[1, 2, 3], [4, -1, 6]] (some 1) (some 2)).samples.length = 1) ∧
      ∀ r ∈ (sample mW2 [[5, 5]] [[1, 2, 3], [4, -1, 6]] (some 1) (some 2)).samples,
        r.length = ([[5, 5]] : Mat).length ∧
        ∃ d ∈ ([[1, 2, 3], [4, -1, 6]] : Mat),
          passesConstraint (sampleConstrainedIdx mW2 [[5, 5]]) d = true ∧
          r = d.take ([[5, 5]] : Mat).length) :=
  ⟨by simp [getDerivConstraintPoints_length, mW2],
    sample_shape_spec mW2 [[5, 5]] [[1, 2, 3], [4, -1, 6]] 1 2
      (by simp [getDerivConstraintPoints_length, mW2])⟩

/-- C8: `sample` warns exactly when, after substituting the stored defaults
for omitted arguments, `num_samples * 20 > num_rejection_samples`; the warning
never aborts the call — the returned batch is the rejection-sampling pipeline
result in either case. -/
theorem sample_warning_spec (m : MonotonicRejectionGP) (X draws : Mat)
    (nsArg nrArg : Option ℕ) :
    ((sample m X draws nsArg nrArg).warned = true
        ↔ nsArg.getD m.numSamples * 20 > nrArg.getD m.numRejectionSamples) ∧
    (sample m X draws nsArg nrArg).samples
      = (rejectionSampler draws (nsArg.getD m.numSamples) (sampleConstrainedIdx m X)).map
          (fun s => s.take X.length) := by
  refine ⟨?_, sample_samples_eq m X draws nsArg nrArg⟩
  rw [sample_warned_eq]
  exact decide_eq_true_iff

/-- C6: with `fixed_prior_mean` supplied, the mean constant is set to
`norm.ppf(fixed_prior_mean)` for a Bernoulli likelihood and to
`fixed_prior_mean` itself otherwise, is frozen (non-learnable), and is left
unchanged by the fit, which only updates learnable parameters. -/
theorem fixed_prior_mean_spec (monotonicIdxs : List ℤ) (sobolPoints : Mat)
    (likelihoodIsBernoulli : Bool) (p defaultMeanConstant : ℚ) (normPpf : ℚ → ℚ)
    (numInduc numSamples numRejectionSamples : ℕ) (optimizedValue : ℚ) :
    (mkMonotonicRejectionGP monotonicIdxs sobolPoints likelihoodIsBernoulli (some p)
        defaultMeanConstant normPpf numInduc numSamples numRejectionSamples).meanConstant
      = (if likelihoodIsBernoulli then normPpf p else p) ∧
    (mkMonotonicRejectionGP monotonicIdxs sobolPoints likelihoodIsBernoulli (some p)
        defaultMeanConstant normPpf numInduc numSamples numRejectionSamples).meanConstantLearnable
      = false ∧
    (fitMeanConstant
        (mkMonotonicRejectionGP monotonicIdxs sobolPoints likelihoodIsBernoulli (some p)
          defaultMeanConstant normPpf numInduc numSamples numRejectionSamples)
        optimizedValue).meanConstant
      = (if likelihoodIsBernoulli then normPpf p else p) := by
  refine ⟨rfl, rfl, ?_⟩
  simp [fitMeanConstant, mkMonotonicRejectionGP]

/-- C5: in probability space, `predict` returns the latent mean and the
latent (clamped) variance each passed through the identical standard-normal
CDF transform — the variance is not converted to a proper probability-space
variance, it gets the same elementwise CDF as the mean. -/
theorem predict_probability_space_spec (m : MonotonicRejectionGP) (X draws : Mat)
    (normCdf : ℚ → ℚ) :
    predict m X draws true normCdf
      = (specProbTransform normCdf (predict m X draws false normCdf).1,
         specProbTransform normCdf (predict m X draws false normCdf).2) := by
  simp [predict, specProbTransform]


/-- A minimal concrete model (no monotonic dimensions) used to evaluate
`predict` on a single-row query. -/
def mW1 : MonotonicRejectionGP :=
  { monotonicIdxs := []
    numInduc := 0
    inducingPoints := []
    numSamples := 1
    numRejectionSamples := 1
    meanConstant := 0
    meanConstantLearnable := true }

lemma squeeze_of_length_ne_one (l : List ℚ) (h : l.length ≠ 1) :
    squeeze l = .vec l := by
  match l with
  | [] => rfl
  | [x] => exact absurd rfl h
  | x :: y :: t => rfl

lemma squeeze_shape_of_length_one (l : List ℚ) (h : l.length = 1) :
    stShape (squeeze l) = [] := by
  match l with
  | [] => simp at h
  | [x] => rfl
  | x :: y :: t => simp at h

lemma meanDim0_length (s : Mat) (n : ℕ) : (meanDim0 s n).length = n := by
  simp [meanDim0]

lemma varDim0_length (s : Mat) (n : ℕ) : (varDim0 s n).length = n := by
  simp [varDim0]

lemma clampMin0_length (l : List ℚ) : (clampMin0 l).length = l.length := by
  simp [clampMin0]

lemma predict_fst_eq (m : MonotonicRejectionGP) (X draws : Mat) (normCdf : ℚ → ℚ) :
    (predict m X draws false normCdf).1
      = squeeze (meanDim0 (sample m X draws none none).samples X.length) := rfl

lemma predict_snd_eq (m : MonotonicRejectionGP) (X draws : Mat) (normCdf : ℚ → ℚ) :
    (predict m X draws false normCdf).2
      = squeeze (clampMin0 (varDim0 (sample m X draws none none).samples X.length)) := rfl

/-- C4 counterexample: on a single-row query (`n = 1`), the trailing
`squeeze()` in `predict` collapses mean and variance to 0-dimensional
tensors, so their shape is `[]`, not `(1,)` as the claim states. -/
theorem predict_single_point_scalar_cx :
    stShape (predict mW1 [[0]] [[0]] false id).1 = [] ∧
    stShape (predict mW1 [[0]] [[0]] false id).2 = [] ∧
    stShape (predict mW1 [[0]] [[0]] false id).1 ≠ [([[0]] : Mat).length] := by
  have h1 : stShape (predict mW1 [[0]] [[0]] false id).1 = [] := by
    rw [predict_fst_eq]
    exact squeeze_shape_of_length_one _ (meanDim0_length _ _)
  have h2 : stShape (predict mW1 [[0]] [[0]] false id).2 = [] := by
    rw [predict_snd_eq]
    exact squeeze_shape_of_length_one _
      (by rw [clampMin0_length, varDim0_length]; rfl)
  refine ⟨h1, h2, ?_⟩
  rw [h1]
  exact fun hc => List.noConfusion hc

/-- C4 (amended): for every query with `n ≠ 1` rows, `predict` returns mean
and variance of shape `(n,)` and every variance entry is ≥ 0 (it is clamped at
0); for `n = 1` the final `squeeze()` collapses both to 0-dimensional
scalars. -/
theorem predict_shapes_spec (m : MonotonicRejectionGP) (X draws : Mat)
    (normCdf : ℚ → ℚ) (h : X.length ≠ 1) :
    stShape (predict m X draws false normCdf).1 = [X.length] ∧
    stShape (predict m X draws false normCdf).2 = [X.length] ∧
    ∀ q ∈ stEntries (predict m X draws false normCdf).2, 0 ≤ q := by
  have hm : (meanDim0 (sample m X draws none none).samples X.length).length ≠ 1 := by
    rw [meanDim0_length]; exact h
  have hv : (clampMin0 (varDim0 (sample m X draws none none).samples X.length)).length ≠ 1 := by
    rw [clampMin0_length, varDim0_length]; exact h
  refine ⟨?_, ?_, ?_⟩
  · rw [predict_fst_eq, squeeze_of_length_ne_one _ hm, stShape, meanDim0_length]
  · rw [predict_snd_eq, squeeze_of_length_ne_one _ hv, stShape, clampMin0_length,
      varDim0_length]
  · intro q hq
    rw [predict_snd_eq, squeeze_of_length_ne_one _ hv, stEntries] at hq
    unfold clampMin0 at hq
    obtain ⟨x, _, rfl⟩ := List.mem_map.mp hq
    exact le_max_right x 0

/-- Witness for the amended C4 at a concrete two-row query. -/
theorem predict_shapes_spec_witness :
    ([[0], [1]] : Mat).length ≠ 1 ∧
    (stShape (predict mW1 [[0], [1]] [[0, 0]] false id).1 = [([[0], [1]] : Mat).length] ∧
      stShape (predict mW1 [[0], [1]] [[0, 0]] false id).2 = [([[0], [1]] : Mat).length] ∧
      ∀ q ∈ stEntries (predict mW1 [[0], [1]] [[0, 0]] false id).2, 0 ≤ q) :=
  ⟨by decide, predict_shapes_spec mW1 [[0], [1]] [[0, 0]] id (by decide)⟩

/-- C9 (bug in the code): `_get_extremum` with an unknown extremum type and
`get_jnd` with an unknown method and a numeric `cred_level` raise the
descriptive `RuntimeError` naming the offending string; but `get_jnd` with an
unknown method and `cred_level=None` falls through the `if cred_level is
None` block to `alpha = 1 - cred_level`, raising a `TypeError` that does not
name the method — contradicting `get_jnd`'s own docstring ("Raises:
RuntimeError: for passing an unknown method"). -/
theorem query_method_error_paths :
    getExtremum "argmax" = Except.error (QueryError.unknownExtremumType "argmax") ∧
    getJnd "slope" (some (1 / 2)) = Except.error (QueryError.unknownJndMethod "slope") ∧
    getJnd "slope" none = Except.error QueryError.typeErrorIntSubNone ∧
    getJnd "slope" none ≠ Except.error (QueryError.unknownJndMethod "slope") := by
  refine ⟨rfl, rfl, rfl, ?_⟩
  simp [getJnd]

